import Mathlib

/-!
Verification of the OneDish recipe conversion engine
(`src/app/api/convert-recipe/route.ts`), shallowly embedded in Lean.

Modelling conventions:
* JS numbers are modelled as exact rationals (`ℚ`); `Math.round x` is
  `⌊x + 1/2⌋` (JS rounds halves toward +∞), `Math.floor` is `⌊·⌋`,
  `Math.max` is `max`.
* JS strings are Lean `String`s; character-level work is done on `.data`.
* An optional JS field (`amount?: string`) is an `Option`.
-/

set_option maxRecDepth 100000

namespace OneDish

/- Batteries marks the `Rat` arithmetic operations `@[irreducible]`, which
blocks `decide`-style evaluation of the embedded functions on concrete
inputs; re-allow unfolding them locally (scoped to this namespace). -/
attribute [local semireducible] Rat.add Rat.mul Rat.inv Rat.sub Rat.ofScientific

/-! ### Character and digit helpers -/

def isDigitCh (c : Char) : Bool := '0' ≤ c && c ≤ '9'

/-- Whitespace recognised by `trim` / the regex class `\s` (ASCII subset). -/
def isWsCh (c : Char) : Bool := c = ' ' || c = '\t' || c = '\n' || c = '\r'

/-- JS `String.prototype.trim`. -/
def trimWs (cs : List Char) : List Char :=
  ((cs.dropWhile isWsCh).reverse.dropWhile isWsCh).reverse

/-- Numeric value of a digit string (most significant first). -/
def digitsToNat (ds : List Char) : ℕ :=
  ds.foldl (fun acc c => 10 * acc + (c.toNat - 48)) 0

def digitChar (d : ℕ) : Char := Char.ofNat (48 + d)

/-- Decimal digits of `n`, most significant first (fuel-based so it reduces). -/
def natDigitsAux : ℕ → ℕ → List Char
  | 0, _ => []
  | fuel + 1, n =>
    if n < 10 then [digitChar n]
    else natDigitsAux fuel (n / 10) ++ [digitChar (n % 10)]

def natDigits (n : ℕ) : List Char := natDigitsAux (n + 1) n

/-- JS `Number.prototype.toString` for integral values. -/
def intToChars (i : ℤ) : List Char :=
  if i < 0 then '-' :: natDigits i.natAbs else natDigits i.toNat

/-! ### Amount parser (`parseAmountToNumber`, route.ts lines 46-68) -/

/--
The branch for the regex `^\d+\/\d+$`: `some v` when the regex matches
(`v = none` when the denominator is `0`, as the source then returns `null`),
`none` when the regex does not match.
-/
def parseSimpleFrac (cs : List Char) : Option (Option ℚ) :=
  let (num, r1) := cs.span isDigitCh
  match num, r1 with
  | _ :: _, '/' :: r2 =>
    let (den, r3) := r2.span isDigitCh
    match den, r3 with
    | _ :: _, [] =>
      some (if digitsToNat den = 0 then none
            else some ((digitsToNat num : ℚ) / (digitsToNat den : ℚ)))
    | _, _ => none
  | _, _ => none

/-- The branch for the regex `^\d+\s+\d+\/\d+$` (mixed number "1 1/2"). -/
def parseMixed (cs : List Char) : Option (Option ℚ) :=
  let (whole, r1) := cs.span isDigitCh
  match whole with
  | [] => none
  | _ :: _ =>
    let (sp, r2) := r1.span isWsCh
    match sp with
    | [] => none
    | _ :: _ =>
      match parseSimpleFrac r2 with
      | none => none
      | some none => some none
      | some (some f) => some (some ((digitsToNat whole : ℚ) + f))

/--
Modelled subset of JS `Number()` on a trimmed non-empty string: optional
sign, then decimal digits with an optional fractional part
(`-2`, `1`, `1.0000001`, `.5`, `2.`).  Exponents, hex, `Infinity` and
exotic forms are not modelled; they do not occur in any claim.
-/
def jsNumber (cs : List Char) : Option ℚ :=
  let (sign, rest) : ℚ × List Char :=
    match cs with
    | '-' :: r => (-1, r)
    | '+' :: r => (1, r)
    | r => (1, r)
  let (ip, r2) := rest.span isDigitCh
  match r2 with
  | [] => match ip with
    | [] => none
    | _ :: _ => some (sign * (digitsToNat ip : ℚ))
  | '.' :: r3 =>
    let (fp, r4) := r3.span isDigitCh
    match r4 with
    | [] =>
      match ip, fp with
      | [], [] => none
      | _, _ =>
        some (sign * ((digitsToNat ip : ℚ) + (digitsToNat fp : ℚ) / (10 : ℚ) ^ fp.length))
    | _ => none
  | _ => none

/--
Model of `parseAmountToNumber` (route.ts lines 46-68).  `none`/`some ""` are falsy
in JS, so both yield `null`; then the trimmed string is tried against the
simple-fraction form, the mixed-number form, and finally `Number()`.
-/
def parseAmountToNumber : Option String → Option ℚ
  | none => none
  | some a =>
    if a = "" then none
    else
      let trimmed := trimWs a.data
      if trimmed = [] then none
      else
        match parseSimpleFrac trimmed with
        | some v => v
        | none =>
          match parseMixed trimmed with
          | some v => v
          | none => jsNumber trimmed

/-! ### Amount formatter (`formatFraction`, route.ts lines 74-92) -/

/-- JS `Math.round`: round half toward +∞. -/
def jround (q : ℚ) : ℤ := ⌊q + 1/2⌋

/-- The `closeTo` helper from the source: `Math.abs (x - target) < 1e-6`. -/
def closeTo (x target : ℚ) : Bool := |x - target| < 1/1000000

/--
Models `frac.toFixed(2)` for `0 ≤ frac < 1`.  In the rational model this
branch is unreachable (the quarter-remainder is always exactly
0, 1/4, 1/2 or 3/4), but it is kept total and honest.
-/
def jsToFixed2 (q : ℚ) : List Char :=
  let n := (jround (q * 100)).toNat
  ['0', '.', digitChar (n / 10 % 10), digitChar (n % 10)]

/--
JS `Number.prototype.toString` at the final `return rounded.toString()`:
the argument there is always an exact multiple of 1/4, for which the
decimal expansion is `.25`, `.5` or `.75`.
-/
def quarterFracChars (q : ℚ) : List Char :=
  if q = 1/4 then ['.', '2', '5']
  else if q = 1/2 then ['.', '5']
  else if q = 3/4 then ['.', '7', '5']
  else []

def jsNumToStringNonneg (q : ℚ) : List Char :=
  natDigits ⌊q⌋.toNat ++ quarterFracChars (q - (⌊q⌋ : ℚ))

def jsNumToString (q : ℚ) : List Char :=
  if q < 0 then '-' :: jsNumToStringNonneg (-q) else jsNumToStringNonneg q

/--
Body of `formatFraction` after `rounded = Math.round(value*4)/4`: the rest
of the source depends on `value` only through `rounded = k/4`, so it is
factored over the integer `k`.
-/
def formatQuarter (k : ℤ) : String :=
  let rounded : ℚ := (k : ℚ) / 4
  let whole : ℤ := ⌊rounded + 1/100000000⌋
  let frac : ℚ := rounded - (whole : ℚ)
  let fracStr : List Char :=
    if closeTo frac 0 then []
    else if closeTo frac (1/4) then ['1', '/', '4']
    else if closeTo frac (1/2) then ['1', '/', '2']
    else if closeTo frac (3/4) then ['3', '/', '4']
    else jsToFixed2 frac
  String.mk
    (if whole = 0 ∧ fracStr ≠ [] then fracStr
     else if 0 < whole ∧ fracStr = [] then intToChars whole
     else if 0 < whole ∧ fracStr ≠ [] then intToChars whole ++ ' ' :: fracStr
     else jsNumToString rounded)

/-- Model of `formatFraction` (route.ts lines 74-92). -/
def formatFraction (value : ℚ) : String :=
  formatQuarter (jround (value * 4))

/-! ### Data model (route.ts lines 3-40) -/

structure Ingredient where
  name : String
  amount : Option String
  unit : Option String
deriving DecidableEq

structure Recipe where
  title : String
  sourceUrl : Option String
  servings : Option ℚ
  ingredients : List Ingredient
  steps : List String
  estimatedTimeMinutes : Option ℚ
deriving DecidableEq

/-- Model of `OneDishIngredient = Ingredient & { optional?: boolean }`; the engine
always sets the flag, so it is plain `Bool` here. -/
structure OneDishIngredient where
  name : String
  amount : Option String
  unit : Option String
  optional : Bool
deriving DecidableEq

structure ConvertedRecipe where
  title : String
  sourceUrl : Option String
  servings : ℚ
  ingredients : List OneDishIngredient
  steps : List String
  estimatedTimeMinutes : Option ℚ
  warnings : Option (List String)
deriving DecidableEq

inductive IngredientCategory where
  | egg | lemonLime | onion | garlic | herb | spice | oil | liquid
  | flour | sugar | bakingAgent | salt | other
deriving DecidableEq

/-! ### Ingredient categorizer (`categorizeIngredient`, route.ts lines 97-164) -/

/-- ASCII lower-casing (JS `toLowerCase`; the keyword sets are ASCII). -/
def lowerChar (c : Char) : Char :=
  if 'A' ≤ c ∧ c ≤ 'Z' then Char.ofNat (c.toNat + 32) else c

def lowerStr (s : String) : List Char := s.data.map lowerChar

/-- Tests whether `needle` occurs as a contiguous substring starting at some position. -/
def subSearch (needle : List Char) : List Char → Bool
  | [] => needle.isEmpty
  | c :: cs => needle.isPrefixOf (c :: cs) || subSearch needle cs

/-- JS `String.prototype.includes` on a lower-cased haystack. -/
def containsSub (hay : List Char) (needle : String) : Bool :=
  subSearch needle.data hay

def herbWords : List String :=
  ["parsley", "cilantro", "basil", "thyme", "oregano", "rosemary", "sage",
   "dill", "mint", "chive"]

def spiceWords : List String :=
  ["cumin", "paprika", "turmeric", "coriander", "chili powder",
   "chilli powder", "cayenne", "cinnamon", "nutmeg", "allspice",
   "curry powder", "garam masala", "five-spice"]

def oilWords : List String :=
  ["olive oil", "vegetable oil", "canola oil", "avocado oil", "sesame oil",
   "coconut oil"]

def liquidWords : List String :=
  ["soy sauce", "vinegar", "fish sauce", "broth", "stock", "wine",
   "lemon juice", "lime juice", "milk", "cream"]

def categorizeIngredient (name : String) : IngredientCategory :=
  let n := lowerStr name
  if containsSub n "egg" then .egg
  else if containsSub n "lemon" || containsSub n "lime" then .lemonLime
  else if containsSub n "onion" || containsSub n "shallot" then .onion
  else if containsSub n "garlic" then .garlic
  else if herbWords.any (fun h => containsSub n h) then .herb
  else if spiceWords.any (fun s => containsSub n s) then .spice
  else if oilWords.any (fun o => containsSub n o) then .oil
  else if liquidWords.any (fun l => containsSub n l) then .liquid
  else if containsSub n "flour" then .flour
  else if containsSub n "sugar" then .sugar
  else if containsSub n "baking powder" || containsSub n "baking soda"
          || containsSub n "yeast" then .bakingAgent
  else if containsSub n "salt" then .salt
  else .other

/-! ### Baking-recipe detection (`isBakingRecipe`, route.ts lines 185-211) -/

def bakingWords : List String :=
  ["cake", "muffin", "bread", "cookie", "brownie", "loaf", "pie", "tart",
   "pastry", "scone", "biscuit"]

def bakingSignals : List String :=
  ["flour", "baking powder", "baking soda", "yeast", "dough"]

/-- Model of `.join(" ")` over the lower-cased ingredient names. -/
def joinSpace : List (List Char) → List Char
  | [] => []
  | [x] => x
  | x :: xs => x ++ ' ' :: joinSpace xs

def isBakingRecipe (r : Recipe) : Bool :=
  let title := lowerStr r.title
  if bakingWords.any (fun w => containsSub title w) then true
  else
    let text := joinSpace (r.ingredients.map (fun i => lowerStr i.name))
    decide (2 ≤ bakingSignals.countP (fun w => containsSub text w))

/-! ### Warning texts (string literals of the POST handler) -/

def bakingCautionText : String :=
  "This looks like a baking recipe. Scaling it this far down may affect texture or rise. Double-check key measurements."

def eggWarnText : String :=
  "Eggs were rounded to the nearest whole egg for practicality."

def lemonLimeWarnText : String :=
  "Lemon/lime quantity was rounded to the nearest half for usability."

def onionWarnText : String :=
  "Onion amount was rounded to the nearest quarter onion."

def garlicWarnText : String :=
  "Garlic cloves were rounded to whole cloves for proper flavor."

def herbWarnText (name : String) : String :=
  "The amount of \"" ++ name ++ "\" is very small after scaling. It's marked as optional – feel free to skip if you like."

def spiceWarnText (name : String) : String :=
  "The amount of \"" ++ name ++ "\" became extremely small. It's marked as optional or \"to taste\" so you can adjust."

def oilLiquidWarnText (name : String) : String :=
  "The amount of \"" ++ name ++ "\" was very low; it was increased slightly to keep flavor and texture balanced."

def structuralWarnText (name : String) : String :=
  "The amount of \"" ++ name ++ "\" is much lower after scaling. This could affect structure; measure carefully."

/-! ### Category policy (the `switch` of POST, route.ts lines 250-340) -/

/--
One branch of the per-ingredient `switch`: given the category, the
ingredient name, the parsed base amount and `scaled = baseAmount * factor`,
returns `(finalAmount, optional, warnings pushed)`.
-/
def applyPolicy (category : IngredientCategory) (name : String)
    (baseAmount scaled : ℚ) : ℚ × Bool × List String :=
  match category with
  | .egg =>
    let roundedEggs : ℤ := max 1 (jround scaled)
    ((roundedEggs : ℚ), false,
      if (roundedEggs : ℚ) ≠ scaled then [eggWarnText] else [])
  | .lemonLime =>
    let halfSteps : ℚ := (jround (scaled * 2) : ℚ) / 2
    let finalAmount := max (1/2) halfSteps
    (finalAmount, false,
      if |finalAmount - scaled| > 1/1000000 then [lemonLimeWarnText] else [])
  | .onion =>
    let quarterSteps : ℚ := (jround (scaled * 4) : ℚ) / 4
    let finalAmount := max (1/4) quarterSteps
    (finalAmount, false,
      if |finalAmount - scaled| > 1/1000000 then [onionWarnText] else [])
  | .garlic =>
    let cloves : ℤ := max 1 (jround scaled)
    ((cloves : ℚ), false,
      if (cloves : ℚ) ≠ scaled then [garlicWarnText] else [])
  | .herb =>
    let quarter : ℚ := (jround (scaled * 4) : ℚ) / 4
    let finalAmount := max (1/4) quarter
    if scaled < 1/2 then (finalAmount, true, [herbWarnText name])
    else (finalAmount, false, [])
  | .spice =>
    let quarter : ℚ := (jround (scaled * 4) : ℚ) / 4
    let finalAmount := max (1/4) quarter
    if scaled < 1/4 then (finalAmount, true, [spiceWarnText name])
    else (finalAmount, false, [])
  | .oil | .liquid =>
    let half : ℚ := (jround (scaled * 2) : ℚ) / 2
    let finalAmount := max (1/2) half
    (finalAmount, false,
      if scaled < 1/2 then [oilLiquidWarnText name] else [])
  | .flour | .sugar | .bakingAgent =>
    let quarter : ℚ := (jround (scaled * 4) : ℚ) / 4
    let finalAmount := max quarter (if scaled > 0 then quarter else 0)
    (finalAmount, false,
      if scaled < baseAmount * (1/4) then [structuralWarnText name] else [])
  | .salt | .other =>
    let quarter : ℚ := (jround (scaled * 4) : ℚ) / 4
    (quarter, false, [])

/-- The body of the per-ingredient `map` (route.ts lines 236-348). -/
def convertIngredient (factor : ℚ) (ing : Ingredient) :
    OneDishIngredient × List String :=
  let category := categorizeIngredient ing.name
  match parseAmountToNumber ing.amount with
  | none => (⟨ing.name, ing.amount, ing.unit, false⟩, [])
  | some baseAmount =>
    let scaled := baseAmount * factor
    let r := applyPolicy category ing.name baseAmount scaled
    (⟨ing.name, some (formatFraction r.1), ing.unit, r.2.1⟩, r.2.2)

/-! ### Servings, factor, warning assembly, conversion (POST, lines 213-360) -/

/-- Model of `recipe.servings && recipe.servings > 0 ? recipe.servings : 1`. -/
def originalServingsOf (r : Recipe) : ℚ :=
  match r.servings with
  | some s => if 0 < s then s else 1
  | none => 1

/-- Model of `targetServings && targetServings > 0 ? targetServings : 1`. -/
def desiredServingsOf (t : Option ℚ) : ℚ :=
  match t with
  | some s => if 0 < s then s else 1
  | none => 1

def factorOf (r : Recipe) (t : Option ℚ) : ℚ :=
  desiredServingsOf t / originalServingsOf r

/-- The `warnings` array in push order: the baking caution first (pushed
before the ingredient `map` runs), then each ingredient's pushes in list
order. -/
def rawWarnings (r : Recipe) (t : Option ℚ) : List String :=
  (if isBakingRecipe r ∧ factorOf r t < 1/2 then [bakingCautionText] else [])
    ++ (r.ingredients.map (fun ing => (convertIngredient (factorOf r t) ing).2)).flatten

/-- Model of `Array.from(new Set(warnings))`: JS `Set` iterates in insertion order,
so duplicates after the first occurrence are dropped. -/
def dedupFirstAux (seen : List String) : List String → List String
  | [] => []
  | x :: xs =>
    if x ∈ seen then dedupFirstAux seen xs
    else x :: dedupFirstAux (x :: seen) xs

def dedupFirst (l : List String) : List String := dedupFirstAux [] l

/-- The successful body of `POST` (route.ts lines 223-360). -/
def convert (r : Recipe) (t : Option ℚ) : ConvertedRecipe :=
  { title := r.title
    sourceUrl := r.sourceUrl
    servings := desiredServingsOf t
    ingredients := r.ingredients.map (fun ing => (convertIngredient (factorOf r t) ing).1)
    steps := r.steps
    estimatedTimeMinutes := r.estimatedTimeMinutes
    warnings :=
      if rawWarnings r t = [] then none else some (dedupFirst (rawWarnings r t)) }

/-- Request-level dispatch of `POST` (route.ts lines 216-221): the only
request-level rejection is an absent `recipe`. -/
def handlePost (recipe : Option Recipe) (targetServings : Option ℚ) :
    Except String ConvertedRecipe :=
  match recipe with
  | none => Except.error "Missing recipe in request body."
  | some r => Except.ok (convert r targetServings)

/-! ### Concrete scenario inputs from the specification -/

def eggRecipe : Recipe :=
  ⟨"Test", none, some 4, [⟨"eggs", some "4", none⟩], [], none⟩

def basilRecipe : Recipe :=
  ⟨"Test", none, some 4, [⟨"fresh basil", some "1", some "cup"⟩], [], none⟩

def saltRecipe : Recipe :=
  ⟨"Test", none, some 4, [⟨"salt", some "to taste", none⟩], [], none⟩

def cakeRecipe : Recipe :=
  ⟨"Chocolate Cake", none, some 8, [⟨"flour", some "2", some "cups"⟩], [], none⟩

/-- An egg amount whose scaled value is within 1e-6 of its rounding but not
equal to it. -/
def eggEpsRecipe : Recipe :=
  ⟨"Test", none, none, [⟨"eggs", some "1.0000001", none⟩], [], none⟩

/-- A flour ingredient with a parseable negative amount. -/
def flourNegRecipe : Recipe :=
  ⟨"Test", none, some 1, [⟨"flour", some "-4", none⟩], [], none⟩

def emptyCakeRecipe : Recipe :=
  ⟨"Cake", none, some 8, [], [], none⟩

/-! ### Helper lemmas -/

theorem convert_warnings_of_raw (r : Recipe) (t : Option ℚ) (ws : List String)
    (h : rawWarnings r t = ws) (hne : ws ≠ []) :
    (convert r t).warnings = some (dedupFirst ws) := by
  simp [convert, h, hne]

theorem convert_warnings_of_raw_nil (r : Recipe) (t : Option ℚ)
    (h : rawWarnings r t = []) : (convert r t).warnings = none := by
  simp [convert, h]

/-! ### Claim theorems -/

/--
C1. For every egg-category ingredient with a parseable positive amount
and any positive scale factor, the final amount produced by the conversion
equals `max 1 (round scaled)` and is therefore never less than 1; in
particular, servings 4, amount "4", target 1 yields the formatted
amount "1".
-/
theorem claim1_egg_never_below_one (ing : Ingredient) (factor a : ℚ)
    (hcat : categorizeIngredient ing.name = IngredientCategory.egg)
    (hp : parseAmountToNumber ing.amount = some a)
    (ha : 0 < a) (hf : 0 < factor) :
    (applyPolicy IngredientCategory.egg ing.name a (a * factor)).1
      = ((max 1 (jround (a * factor)) : ℤ) : ℚ)
    ∧ (1 : ℚ) ≤ (applyPolicy IngredientCategory.egg ing.name a (a * factor)).1
    ∧ (convertIngredient factor ing).1.amount
      = some (formatFraction ((max 1 (jround (a * factor)) : ℤ) : ℚ))
    ∧ (convert eggRecipe (some 1)).ingredients = [⟨"eggs", some "1", none, false⟩] := by
  refine ⟨rfl, ?_, ?_, ?_⟩
  · show (1 : ℚ) ≤ ((max 1 (jround (a * factor)) : ℤ) : ℚ)
    exact_mod_cast le_max_left 1 (jround (a * factor))
  · simp [convertIngredient, hcat, hp, applyPolicy]
  · decide

theorem claim1_egg_never_below_one_witness :
    (1 : ℚ) ≤ (applyPolicy IngredientCategory.egg "eggs" 4 (4 * (1/4))).1 :=
  (claim1_egg_never_below_one ⟨"eggs", some "4", none⟩ (1/4) 4
    (by decide) (by decide)
    (by norm_num) (by norm_num)).2.1

/--
C2. For every herb-category ingredient with a parseable amount whose
scaled value is below 1/2, the conversion marks it `optional`, its final
amount is `max (1/4)` of the quarter-rounded scaled value, and exactly one
warning is emitted for it, a warning whose text contains the ingredient's
name; the `servings = 4`, "fresh basil", amount "1", target 1 scenario
yields the amount "1/4".
-/
theorem claim2_herb_optional (ing : Ingredient) (factor a : ℚ)
    (hcat : categorizeIngredient ing.name = IngredientCategory.herb)
    (hp : parseAmountToNumber ing.amount = some a)
    (hs : a * factor < 1/2) :
    (convertIngredient factor ing).1.optional = true
    ∧ (convertIngredient factor ing).1.amount
      = some (formatFraction (max (1/4 : ℚ) ((jround (a * factor * 4) : ℚ) / 4)))
    ∧ (convertIngredient factor ing).2 = [herbWarnText ing.name]
    ∧ (∃ pre suf, herbWarnText ing.name = pre ++ ing.name ++ suf)
    ∧ (convert basilRecipe (some 1)).ingredients
      = [⟨"fresh basil", some "1/4", some "cup", true⟩]
    ∧ (convert basilRecipe (some 1)).warnings = some [herbWarnText "fresh basil"] := by
  have hcore : convertIngredient factor ing
      = (⟨ing.name,
          some (formatFraction (max (1/4 : ℚ) ((jround (a * factor * 4) : ℚ) / 4))),
          ing.unit, true⟩, [herbWarnText ing.name]) := by
    simp only [convertIngredient, hcat, hp, applyPolicy]
    rw [if_pos hs]
  refine ⟨?_, ?_, ?_, ?_, ?_, ?_⟩
  · rw [hcore]
  · rw [hcore]
  · rw [hcore]
  · exact ⟨"The amount of \"",
      "\" is very small after scaling. It's marked as optional – feel free to skip if you like.",
      rfl⟩
  · decide
  · rw [convert_warnings_of_raw basilRecipe (some 1) [herbWarnText "fresh basil"]
      (by decide) (by simp)]
    simp [dedupFirst, dedupFirstAux]

theorem claim2_herb_optional_witness :
    (convertIngredient (1/4) ⟨"fresh basil", some "1", some "cup"⟩).1.optional = true :=
  (claim2_herb_optional ⟨"fresh basil", some "1", some "cup"⟩ (1/4) 1
    (by decide) (by decide)
    (by norm_num)).1

/--
C3, counterexample. The claim "the final amount equals the scaled value
rounded to the nearest quarter with no separate floor applied" fails for a
parseable negative amount: flour with amount "-4" at factor 1 has
quarter-rounded scaled value -4, but the engine outputs 0 (`Math.max`
against 0 acts as a floor), formatted "0" instead of "-4".
-/
theorem claim3_no_floor_counterexample :
    parseAmountToNumber (some "-4") = some (-4)
    ∧ categorizeIngredient "flour" = IngredientCategory.flour
    ∧ ((jround ((-4 : ℚ) * 4) : ℚ) / 4) = -4
    ∧ (applyPolicy IngredientCategory.flour "flour" (-4) (-4)).1 = 0
    ∧ (applyPolicy IngredientCategory.flour "flour" (-4) (-4)).1
        ≠ ((jround ((-4 : ℚ) * 4) : ℚ) / 4)
    ∧ (convert flourNegRecipe (some 1)).ingredients
        = [⟨"flour", some "0", none, false⟩]
    ∧ formatFraction ((jround ((-4 : ℚ) * 4) : ℚ) / 4) = "-4" := by
  refine ⟨?_, ?_, ?_, ?_, ?_, ?_, ?_⟩ <;> decide

/--
C3, amended. For every flour-, sugar-, or bakingAgent-category
ingredient with a parseable amount: when the scaled value is nonnegative
the final amount equals the scaled value rounded to the nearest quarter
with no separate floor (so a scaled value that rounds to 0 stays 0); when
the scaled value is negative the final amount is that quarter value floored
at 0.  The structure warning naming the ingredient is emitted if and only
if the scaled value is less than 25% of the original parsed amount.
-/
theorem claim3_structural_rounding (ing : Ingredient) (factor a : ℚ)
    (hcat : categorizeIngredient ing.name = IngredientCategory.flour
      ∨ categorizeIngredient ing.name = IngredientCategory.sugar
      ∨ categorizeIngredient ing.name = IngredientCategory.bakingAgent)
    (hp : parseAmountToNumber ing.amount = some a) :
    (0 ≤ a * factor →
      (applyPolicy (categorizeIngredient ing.name) ing.name a (a * factor)).1
        = (jround (a * factor * 4) : ℚ) / 4)
    ∧ (a * factor < 0 →
      (applyPolicy (categorizeIngredient ing.name) ing.name a (a * factor)).1
        = max ((jround (a * factor * 4) : ℚ) / 4) 0)
    ∧ (applyPolicy (categorizeIngredient ing.name) ing.name a (a * factor)).2.2
        = (if a * factor < a * (1/4) then [structuralWarnText ing.name] else [])
    ∧ (convertIngredient factor ing).1.amount
        = some (formatFraction
            ((applyPolicy (categorizeIngredient ing.name) ing.name a (a * factor)).1)) := by
  have hquarter0 : (0 : ℚ) ≤ a * factor → ¬ (a * factor > 0) → (jround (a * factor * 4) : ℚ) / 4 = 0 := by
    intro h0 hng
    have hz : a * factor = 0 := le_antisymm (not_lt.mp hng) h0
    rw [hz]
    norm_num [jround, Int.floor_eq_zero_iff]
  have hone : ∀ c, c = categorizeIngredient ing.name →
      (c = IngredientCategory.flour ∨ c = IngredientCategory.sugar ∨ c = IngredientCategory.bakingAgent) →
      (0 ≤ a * factor →
        (applyPolicy c ing.name a (a * factor)).1 = (jround (a * factor * 4) : ℚ) / 4)
      ∧ (a * factor < 0 →
        (applyPolicy c ing.name a (a * factor)).1 = max ((jround (a * factor * 4) : ℚ) / 4) 0)
      ∧ (applyPolicy c ing.name a (a * factor)).2.2
        = (if a * factor < a * (1/4) then [structuralWarnText ing.name] else []) := by
    intro c hc hcs
    rcases hcs with h | h | h <;> subst h <;>
      refine ⟨?_, ?_, rfl⟩ <;> intro hsc
    all_goals by_cases hpos : a * factor > 0
    all_goals simp [applyPolicy, hpos]
    all_goals first
      | exact (hquarter0 hsc hpos).symm ▸ rfl
      | linarith
  have hmain := hone (categorizeIngredient ing.name) rfl hcat
  refine ⟨hmain.1, hmain.2.1, hmain.2.2, ?_⟩
  simp [convertIngredient, hp]

theorem claim3_structural_rounding_witness :
    (0 ≤ (2 : ℚ) * (1/4) →
      (applyPolicy (categorizeIngredient "flour") "flour" 2 (2 * (1/4))).1
        = (jround ((2 : ℚ) * (1/4) * 4) : ℚ) / 4) ∧ True :=
  ⟨(claim3_structural_rounding ⟨"flour", some "2", some "cups"⟩ (1/4) 2
      (Or.inl (by decide)) (by decide)).1,
    trivial⟩

/--
C4, counterexample. The claim that the egg "rounded for practicality"
warning is governed by the same 1e-6 epsilon comparison as lemonLime and
onion fails: eggs with amount "1.0000001" at factor 1 have
`|final - scaled| = 1e-7 ≤ 1e-6`, yet the code (which compares
`roundedEggs !== scaled` exactly) emits the warning.
-/
theorem claim4_epsilon_counterexample :
    parseAmountToNumber (some "1.0000001") = some (10000001/10000000)
    ∧ (applyPolicy IngredientCategory.egg "eggs" (10000001/10000000) (10000001/10000000)).1 = 1
    ∧ ¬ (|(1 : ℚ) - 10000001/10000000| > 1/1000000)
    ∧ (applyPolicy IngredientCategory.egg "eggs" (10000001/10000000) (10000001/10000000)).2.2
        = [eggWarnText]
    ∧ (convert eggEpsRecipe none).warnings = some [eggWarnText] := by
  refine ⟨?_, ?_, ?_, ?_, ?_⟩
  · decide
  · decide
  · decide
  · decide
  · rw [convert_warnings_of_raw eggEpsRecipe none [eggWarnText]
      (by decide) (by simp)]
    simp [dedupFirst, dedupFirstAux]

/--
C4, amended. For ingredients in category egg, lemonLime, onion or
garlic with a parseable amount: the lemonLime and onion warnings are
emitted iff the post-rounding/floor final amount differs from the scaled
value by more than the 1e-6 epsilon, while the egg and garlic warnings are
emitted iff the rounded whole value differs from the scaled value exactly
(plain inequality, no epsilon).
-/
theorem claim4_rounding_warning_conditions (ing : Ingredient) (factor a : ℚ)
    (hp : parseAmountToNumber ing.amount = some a) :
    (categorizeIngredient ing.name = IngredientCategory.egg →
      ((convertIngredient factor ing).2 = [eggWarnText]
        ↔ ((max 1 (jround (a * factor)) : ℤ) : ℚ) ≠ a * factor))
    ∧ (categorizeIngredient ing.name = IngredientCategory.garlic →
      ((convertIngredient factor ing).2 = [garlicWarnText]
        ↔ ((max 1 (jround (a * factor)) : ℤ) : ℚ) ≠ a * factor))
    ∧ (categorizeIngredient ing.name = IngredientCategory.lemonLime →
      ((convertIngredient factor ing).2 = [lemonLimeWarnText]
        ↔ |max (1/2 : ℚ) ((jround (a * factor * 2) : ℚ) / 2) - a * factor| > 1/1000000))
    ∧ (categorizeIngredient ing.name = IngredientCategory.onion →
      ((convertIngredient factor ing).2 = [onionWarnText]
        ↔ |max (1/4 : ℚ) ((jround (a * factor * 4) : ℚ) / 4) - a * factor| > 1/1000000)) := by
  refine ⟨?_, ?_, ?_, ?_⟩ <;> intro hcat <;>
    simp only [convertIngredient, hcat, hp, applyPolicy] <;>
    split <;> simp_all

theorem claim4_rounding_warning_conditions_witness :
    (convertIngredient (1/4) ⟨"eggs", some "4", none⟩).2 = [eggWarnText]
      ↔ ((max 1 (jround ((4 : ℚ) * (1/4))) : ℤ) : ℚ) ≠ (4 : ℚ) * (1/4) :=
  (claim4_rounding_warning_conditions ⟨"eggs", some "4", none⟩ (1/4) 4
    (by decide)).1 (by decide)

/-- Helper for C5: the parse/format round trip at each quarter step `k/4`,
`0 ≤ k ≤ 200` (i.e. every value `formatFraction` can produce on `[0, 50]`). -/
theorem parse_formatQuarter : ∀ n : ℕ, n < 201 →
    parseAmountToNumber (some (formatQuarter (n : ℤ))) = some ((n : ℚ) / 4) := by
  decide

/--
C5. For every rational `x ∈ [0, 50]`, parsing the formatted amount
succeeds and returns the quarter-rounded value, which is within 1/8
(= 0.125) of `x`; and when `x` is already an exact multiple of 1/4 the
round trip returns exactly `x`.
-/
theorem claim5_roundtrip (x : ℚ) (h0 : 0 ≤ x) (h1 : x ≤ 50) :
    parseAmountToNumber (some (formatFraction x)) = some ((jround (x * 4) : ℚ) / 4)
    ∧ |((jround (x * 4) : ℚ) / 4) - x| ≤ 1/8
    ∧ (∀ m : ℤ, x = (m : ℚ) / 4 →
        parseAmountToNumber (some (formatFraction x)) = some x) := by
  have hub : ((jround (x * 4) : ℚ)) ≤ x * 4 + 1/2 := Int.floor_le _
  have hlb : x * 4 + 1/2 < (jround (x * 4) : ℚ) + 1 := Int.lt_floor_add_one _
  have hk0 : 0 ≤ jround (x * 4) := by
    refine Int.le_floor.mpr ?_
    push_cast
    nlinarith
  have hk1 : jround (x * 4) < 201 := by
    by_contra hcon
    push_neg at hcon
    have : ((201 : ℤ) : ℚ) ≤ ((jround (x * 4) : ℤ) : ℚ) := by exact_mod_cast hcon
    push_cast at this
    linarith
  have hnat : (((jround (x * 4)).toNat : ℤ)) = jround (x * 4) := Int.toNat_of_nonneg hk0
  have hlt : (jround (x * 4)).toNat < 201 := by omega
  have hparse := parse_formatQuarter ((jround (x * 4)).toNat) hlt
  have hqcast : (((jround (x * 4)).toNat : ℚ)) = ((jround (x * 4) : ℤ) : ℚ) := by
    exact_mod_cast congrArg (fun z : ℤ => (z : ℚ)) hnat
  rw [hnat, hqcast] at hparse
  have hfmt : formatFraction x = formatQuarter (jround (x * 4)) := rfl
  refine ⟨by rw [hfmt]; exact hparse, ?_, ?_⟩
  · rw [abs_le]
    constructor <;> linarith
  · intro m hm
    have hx4 : x * 4 = (m : ℚ) := by rw [hm]; ring
    have hjr : jround (x * 4) = m := by
      unfold jround
      rw [hx4, add_comm, Int.floor_add_int]
      norm_num [Int.floor_eq_zero_iff]
    rw [hfmt, hparse, hjr, hm]

theorem claim5_roundtrip_witness :
    parseAmountToNumber (some (formatFraction (1/3)))
      = some ((jround ((1/3 : ℚ) * 4) : ℚ) / 4) :=
  (claim5_roundtrip (1/3) (by norm_num) (by norm_num)).1

/--
C6. Every ingredient whose amount fails to parse (absent or empty
amount, non-numeric text such as "to taste", a fraction with denominator
0) is passed through with its amount text unchanged, `optional = false`,
no scaling, and no per-ingredient warning; the salt "to taste" scenario
passes through unchanged with no warnings at all.
-/
theorem claim6_unparseable_passthrough (ing : Ingredient) (factor : ℚ)
    (hp : parseAmountToNumber ing.amount = none) :
    convertIngredient factor ing = (⟨ing.name, ing.amount, ing.unit, false⟩, [])
    ∧ parseAmountToNumber none = none
    ∧ parseAmountToNumber (some "") = none
    ∧ parseAmountToNumber (some "to taste") = none
    ∧ parseAmountToNumber (some "1/0") = none
    ∧ (convert saltRecipe (some 2)).ingredients
        = [⟨"salt", some "to taste", none, false⟩]
    ∧ (convert saltRecipe (some 2)).warnings = none := by
  refine ⟨?_, rfl, ?_, ?_, ?_, ?_, ?_⟩
  · simp [convertIngredient, hp]
  · decide
  · decide
  · decide
  · decide
  · exact convert_warnings_of_raw_nil saltRecipe (some 2) (by decide)

theorem claim6_unparseable_passthrough_witness :
    convertIngredient (1/2) ⟨"salt", some "to taste", none⟩
      = (⟨"salt", some "to taste", none, false⟩, []) :=
  (claim6_unparseable_passthrough ⟨"salt", some "to taste", none⟩ (1/2)
    (by decide)).1

/-! ### Order-preserving deduplication lemmas (for the warning list) -/

theorem mem_dedupFirstAux (x : String) : ∀ (l seen : List String),
    x ∈ dedupFirstAux seen l ↔ x ∈ l ∧ x ∉ seen := by
  intro l
  induction l with
  | nil => intro seen; simp [dedupFirstAux]
  | cons y ys ih =>
    intro seen
    by_cases hy : y ∈ seen
    · rw [show dedupFirstAux seen (y :: ys)
          = if y ∈ seen then dedupFirstAux seen ys
            else y :: dedupFirstAux (y :: seen) ys from rfl, if_pos hy, ih]
      constructor
      · rintro ⟨h1, h2⟩
        exact ⟨List.mem_cons_of_mem _ h1, h2⟩
      · rintro ⟨h1, h2⟩
        rcases List.mem_cons.mp h1 with h | h
        · exact absurd hy (h ▸ h2)
        · exact ⟨h, h2⟩
    · rw [show dedupFirstAux seen (y :: ys)
          = if y ∈ seen then dedupFirstAux seen ys
            else y :: dedupFirstAux (y :: seen) ys from rfl, if_neg hy]
      simp only [List.mem_cons, ih]
      constructor
      · rintro (h | ⟨h1, h2⟩)
        · exact ⟨Or.inl h, by rw [h]; exact hy⟩
        · exact ⟨Or.inr h1, fun hs => h2 (Or.inr hs)⟩
      · rintro ⟨h1, h2⟩
        by_cases hxy : x = y
        · exact Or.inl hxy
        · rcases h1 with h | h
          · exact absurd h hxy
          · exact Or.inr ⟨h, fun hh => hh.elim hxy h2⟩

theorem nodup_dedupFirstAux : ∀ (l seen : List String),
    (dedupFirstAux seen l).Nodup := by
  intro l
  induction l with
  | nil => intro seen; simp [dedupFirstAux]
  | cons y ys ih =>
    intro seen
    by_cases hy : y ∈ seen
    · rw [show dedupFirstAux seen (y :: ys)
          = if y ∈ seen then dedupFirstAux seen ys
            else y :: dedupFirstAux (y :: seen) ys from rfl, if_pos hy]
      exact ih seen
    · rw [show dedupFirstAux seen (y :: ys)
          = if y ∈ seen then dedupFirstAux seen ys
            else y :: dedupFirstAux (y :: seen) ys from rfl, if_neg hy]
      refine List.nodup_cons.mpr ⟨?_, ih (y :: seen)⟩
      intro hmem
      exact ((mem_dedupFirstAux y ys (y :: seen)).mp hmem).2 (List.mem_cons_self y seen)

theorem pairwise_dedupFirstAux : ∀ (l seen : List String),
    (dedupFirstAux seen l).Pairwise (fun a b => l.indexOf a < l.indexOf b) := by
  intro l
  induction l with
  | nil => intro seen; simp [dedupFirstAux]
  | cons y ys ih =>
    intro seen
    by_cases hy : y ∈ seen
    · rw [show dedupFirstAux seen (y :: ys)
          = if y ∈ seen then dedupFirstAux seen ys
            else y :: dedupFirstAux (y :: seen) ys from rfl, if_pos hy]
      refine (ih seen).imp_of_mem ?_
      intro a b ha hb hab
      have hay : a ≠ y := fun h =>
        ((mem_dedupFirstAux a ys seen).mp ha).2 (by rw [h]; exact hy)
      have hby : b ≠ y := fun h =>
        ((mem_dedupFirstAux b ys seen).mp hb).2 (by rw [h]; exact hy)
      rw [List.indexOf_cons_ne ys (Ne.symm hay), List.indexOf_cons_ne ys (Ne.symm hby)]
      exact Nat.succ_lt_succ hab
    · rw [show dedupFirstAux seen (y :: ys)
          = if y ∈ seen then dedupFirstAux seen ys
            else y :: dedupFirstAux (y :: seen) ys from rfl, if_neg hy]
      refine List.pairwise_cons.mpr ⟨?_, ?_⟩
      · intro b hb
        have hby : b ≠ y := fun h =>
          ((mem_dedupFirstAux b ys (y :: seen)).mp hb).2
            (by rw [h]; exact List.mem_cons_self y seen)
        rw [List.indexOf_cons_self, List.indexOf_cons_ne ys (Ne.symm hby)]
        exact Nat.succ_pos _
      · refine (ih (y :: seen)).imp_of_mem ?_
        intro a b ha hb hab
        have hay : a ≠ y := fun h =>
          ((mem_dedupFirstAux a ys (y :: seen)).mp ha).2
            (by rw [h]; exact List.mem_cons_self y seen)
        have hby : b ≠ y := fun h =>
          ((mem_dedupFirstAux b ys (y :: seen)).mp hb).2
            (by rw [h]; exact List.mem_cons_self y seen)
        rw [List.indexOf_cons_ne ys (Ne.symm hay), List.indexOf_cons_ne ys (Ne.symm hby)]
        exact Nat.succ_lt_succ hab

/--
C7. For every recipe detected as a baking recipe (title contains a
baking-dish keyword, or at least two baking-signal keywords occur among
the ingredient names) converted with a factor below 1/2, the output
warning list contains the baking texture/rise caution exactly once,
independently of per-ingredient outcomes; the "Chocolate Cake",
servings 8 → 2 scenario produces it.
-/
theorem claim7_baking_caution_once (r : Recipe) (t : Option ℚ)
    (hb : isBakingRecipe r = true) (hf : factorOf r t < 1/2) :
    (convert r t).warnings = some (dedupFirst (rawWarnings r t))
    ∧ (dedupFirst (rawWarnings r t)).count bakingCautionText = 1
    ∧ isBakingRecipe cakeRecipe = true
    ∧ factorOf cakeRecipe (some 2) = 1/4
    ∧ (convert cakeRecipe (some 2)).warnings = some [bakingCautionText] := by
  have hraw : rawWarnings r t
      = bakingCautionText
        :: (r.ingredients.map (fun ing => (convertIngredient (factorOf r t) ing).2)).flatten := by
    unfold rawWarnings
    rw [if_pos ⟨hb, hf⟩]
    rfl
  refine ⟨?_, ?_, ?_, ?_, ?_⟩
  · exact convert_warnings_of_raw r t _ rfl (by rw [hraw]; simp)
  · have hmem : bakingCautionText ∈ dedupFirst (rawWarnings r t) := by
      rw [dedupFirst, mem_dedupFirstAux]
      exact ⟨by rw [hraw]; exact List.mem_cons_self _ _, by simp⟩
    exact List.count_eq_one_of_mem (nodup_dedupFirstAux _ _) hmem
  · decide
  · decide
  · rw [convert_warnings_of_raw cakeRecipe (some 2) [bakingCautionText]
      (by decide) (by simp)]
    simp [dedupFirst, dedupFirstAux]

theorem claim7_baking_caution_once_witness :
    (convert cakeRecipe (some 2)).warnings
      = some (dedupFirst (rawWarnings cakeRecipe (some 2))) :=
  (claim7_baking_caution_once cakeRecipe (some 2) (by decide) (by decide)).1

/--
C8. The output warnings field is absent exactly when no warning was
produced (never an empty list); when present it is the raw warning
sequence deduplicated: it has no duplicate strings, contains exactly the
strings of the raw sequence, and lists them in order of first occurrence
(indices in the raw sequence are strictly increasing along the list).
-/
theorem claim8_warnings_dedup (r : Recipe) (t : Option ℚ) :
    ((convert r t).warnings = none ↔ rawWarnings r t = [])
    ∧ (rawWarnings r t ≠ [] →
        (convert r t).warnings = some (dedupFirst (rawWarnings r t)))
    ∧ (∀ ws, (convert r t).warnings = some ws →
        ws.Nodup
        ∧ (∀ x, x ∈ ws ↔ x ∈ rawWarnings r t)
        ∧ ws.Pairwise (fun a b =>
            (rawWarnings r t).indexOf a < (rawWarnings r t).indexOf b)) := by
  refine ⟨⟨?_, ?_⟩, ?_, ?_⟩
  · intro h
    by_contra hne
    rw [convert_warnings_of_raw r t _ rfl hne] at h
    exact Option.noConfusion h
  · intro h
    exact convert_warnings_of_raw_nil r t h
  · intro hne
    exact convert_warnings_of_raw r t _ rfl hne
  · intro ws hws
    by_cases hne : rawWarnings r t = []
    · rw [convert_warnings_of_raw_nil r t hne] at hws
      exact Option.noConfusion hws
    · rw [convert_warnings_of_raw r t _ rfl hne] at hws
      have hws' : ws = dedupFirst (rawWarnings r t) := (Option.some.inj hws).symm
      subst hws'
      refine ⟨nodup_dedupFirstAux _ _, ?_, pairwise_dedupFirstAux _ _⟩
      intro x
      rw [dedupFirst, mem_dedupFirstAux]
      simp

theorem claim8_warnings_dedup_witness :
    ([herbWarnText "fresh basil"] : List String).Nodup :=
  ((claim8_warnings_dedup basilRecipe (some 1)).2.2 [herbWarnText "fresh basil"]
    (by
      rw [convert_warnings_of_raw basilRecipe (some 1) [herbWarnText "fresh basil"]
        (by decide) (by simp)]
      simp [dedupFirst, dedupFirstAux])).1

/--
C9. Conversion preserves the frame: title, sourceUrl, steps and
estimatedTimeMinutes pass through unchanged; the output servings equals
the target (or 1 when the target is absent or non-positive); and the
ingredient list keeps its length and order, the i-th output ingredient
being derived from the i-th input ingredient.
-/
theorem claim9_frame (r : Recipe) (t : Option ℚ) :
    (convert r t).title = r.title
    ∧ (convert r t).sourceUrl = r.sourceUrl
    ∧ (convert r t).steps = r.steps
    ∧ (convert r t).estimatedTimeMinutes = r.estimatedTimeMinutes
    ∧ (convert r t).servings = desiredServingsOf t
    ∧ (∀ v : ℚ, t = some v → 0 < v → (convert r t).servings = v)
    ∧ (t = none → (convert r t).servings = 1)
    ∧ (∀ v : ℚ, t = some v → ¬ 0 < v → (convert r t).servings = 1)
    ∧ (convert r t).ingredients.length = r.ingredients.length
    ∧ (∀ (i : ℕ) (h1 : i < r.ingredients.length)
        (h2 : i < (convert r t).ingredients.length),
        (convert r t).ingredients[i]
          = (convertIngredient (factorOf r t) r.ingredients[i]).1) := by
  refine ⟨rfl, rfl, rfl, rfl, rfl, ?_, ?_, ?_, ?_, ?_⟩
  · rintro v rfl hv
    simp [convert, desiredServingsOf, hv]
  · rintro rfl
    rfl
  · rintro v rfl hv
    simp [convert, desiredServingsOf, hv]
  · simp [convert]
  · intro i h1 h2
    simp [convert]

theorem claim9_frame_witness : (convert saltRecipe (some 5)).servings = 5 :=
  (claim9_frame saltRecipe (some 5)).2.2.2.2.2.1 5 rfl (by norm_num)

/--
C10. The conversion core does not fail fast on an empty ingredients
list: it succeeds, returning an empty ingredients list and the target
servings, and the baking caution can still fire from the title alone; the
only request-level rejection is an absent recipe object.
-/
theorem claim10_empty_ingredients (r : Recipe) (t : Option ℚ)
    (he : r.ingredients = []) :
    handlePost (some r) t = Except.ok (convert r t)
    ∧ (convert r t).ingredients = []
    ∧ (convert r t).servings = desiredServingsOf t
    ∧ (∀ t2, handlePost none t2 = Except.error "Missing recipe in request body.")
    ∧ (convert emptyCakeRecipe (some 2)).warnings = some [bakingCautionText]
    ∧ (convert emptyCakeRecipe (some 2)).ingredients = [] := by
  refine ⟨rfl, ?_, rfl, fun t2 => rfl, ?_, ?_⟩
  · simp [convert, he]
  · rw [convert_warnings_of_raw emptyCakeRecipe (some 2) [bakingCautionText]
      (by decide) (by simp)]
    simp [dedupFirst, dedupFirstAux]
  · decide

theorem claim10_empty_ingredients_witness :
    handlePost (some emptyCakeRecipe) (some 2)
      = Except.ok (convert emptyCakeRecipe (some 2)) :=
  (claim10_empty_ingredients emptyCakeRecipe (some 2) rfl).1

end OneDish
